import Mathlib

/-!
Shallow embedding of the telescope mount protocol client
(`telescope/mount.py`) and proofs about it.

Modelling conventions:
* Python 2 byte strings are modelled as `List Char` (every byte that occurs
  on the wire is ASCII).
* Python floats are modelled as exact rationals (`ℚ`); `int(x)` on a float
  is truncation toward zero (`pytrunc`).
* The serial transport together with the device behind it is modelled as a
  deterministic request/response oracle `Dev D`: writing a command makes the
  device transition and append its reply bytes to the unread input buffer.
  A reply of `Except.error e` models a transport-level failure raised at the
  write (`serial` exceptions).
* An operation of the `Mount` class is a state transformer
  `M D α = St D → Except PyErr α × St D`: stateful effects performed before
  an exception are kept, and the exception propagates (`mbind`).
* The read loop of `Mount._command` in terminator mode never returns if the
  stream holds no `'#'`; this divergence (and exhaustion of the explicit
  fuel of the polling loop, which is chosen large enough never to be hit
  when the poll interval is positive) is modelled as the error `PyErr.hang`.
* The module-level name `mount` used inside `Mount._wait_goto` is modelled
  by the flag `gm`: `gm = true` means the module global `mount` is bound to
  this very session (as in the `__main__` block of the source); `gm = false`
  means no global `mount` is bound, and evaluating `mount.get_coord()`
  raises a `NameError`.
* `astropy` is an external collaborator: a `SkyCoord` is modelled as the
  pair of its two angles measured in cycles (fractions of a full turn),
  which is exactly what the source reads off via `.ra.cycle`/`.dec.cycle`.
-/

deriving instance DecidableEq for Except

namespace Telescope

/-- Python exceptions (and the divergence marker `hang`) that the modelled
code can produce. -/
inductive PyErr where
  | nameError (n : String)
  | valueError (msg : String)
  | indexError
  | transportError
  | hang
deriving DecidableEq

/-- A Python value as far as `Mount.echo` inspects it: either a `str`
(a list of bytes) or some non-string value. -/
inductive PyVal where
  | str (s : List Char)
  | nonStr
deriving DecidableEq

/-- `coordinates.SkyCoord`, reduced to what the source uses: the right
ascension and declination as exact fractions of a full turn
(`sky_coord.ra.cycle` and `sky_coord.dec.cycle`). -/
structure SkyCoord where
  ra : ℚ
  dec : ℚ
deriving DecidableEq

/-- `SkyCoord(ra=r*u.degree, dec=d*u.degree)` for in-range degree inputs:
the cycle fractions are `r/360` and `d/360`. -/
def skycoordOfDeg (r d : ℚ) : SkyCoord := ⟨r / 360, d / 360⟩

/-- Observable state of a mount session: the device behind the serial port,
the bytes received but not yet read, the log of commands written so far,
and whether the port has been closed. -/
structure St (D : Type) where
  dev : D
  inbuf : List Char
  sent : List (List Char)
  closed : Bool
deriving DecidableEq

/-- A device (plus transport) behind the serial port: from its state and a
written command it produces the next state and either the bytes it will
send back or a transport failure raised at the write. -/
def Dev (D : Type) : Type := D → List Char → D × Except PyErr (List Char)

/-- A mount operation: state in, result-or-exception and state out. -/
def M (D : Type) (α : Type) : Type := St D → Except PyErr α × St D

/-- Return a value, leaving the state unchanged. -/
def mpure {D α : Type} (a : α) : M D α := fun s => (.ok a, s)

/-- Sequencing: effects of the first action are kept even when it raises,
and the exception short-circuits the continuation. -/
def mbind {D α β : Type} (x : M D α) (f : α → M D β) : M D β := fun s =>
  match x s with
  | (.ok a, s1) => f a s1
  | (.error e, s1) => (.error e, s1)

/-- Raise a Python exception. -/
def mthrow {D α : Type} (e : PyErr) : M D α := fun s => (.error e, s)

/-! ## Hexadecimal rendering and parsing (`'%04X' %` and `int(_, 16)`) -/

/-- The uppercase hexadecimal digit for `n < 16` (Python `%X` digits). -/
def hexDigitChar (n : Nat) : Char :=
  if n < 10 then Char.ofNat (48 + n) else Char.ofNat (55 + n)

/-- Fuel-driven most-significant-first hex rendering of a natural number. -/
def natHexAux : Nat → Nat → List Char
  | 0, _ => []
  | fuel + 1, n =>
    if n < 16 then [hexDigitChar n]
    else natHexAux fuel (n / 16) ++ [hexDigitChar (n % 16)]

/-- Uppercase hex digits of `n`, no leading zeros (`'%X' % n` for `n ≥ 0`).
The fuel `n + 1` always suffices since the number of digits of `n` is at
most `n + 1`. -/
def natHexList (n : Nat) : List Char := natHexAux (n + 1) n

/-- Left-pad with `'0'` to width 4 (the `04` in `%04X`; wider values are
kept whole). -/
def pad4 (s : List Char) : List Char := List.replicate (4 - s.length) '0' ++ s

/-- Python `'%04X' % n` for an arbitrary integer: zero-padded to a minimum
total width of 4, the sign included in the width for negative values.
There is no reduction modulo 2^16: values of 65536 and above render to
five or more digits. -/
def format04X (n : ℤ) : List Char :=
  if 0 ≤ n then pad4 (natHexList n.toNat)
  else '-' :: (List.replicate (3 - (natHexList (-n).toNat).length) '0' ++ natHexList (-n).toNat)

/-- Value of one hexadecimal digit, as accepted by Python `int(_, 16)`. -/
def hexVal (c : Char) : Option Nat :=
  if '0' ≤ c ∧ c ≤ '9' then some (c.toNat - 48)
  else if 'A' ≤ c ∧ c ≤ 'F' then some (c.toNat - 55)
  else if 'a' ≤ c ∧ c ≤ 'f' then some (c.toNat - 87)
  else none

/-- Accumulator pass of hex parsing. -/
def parseHexAux : List Char → Nat → Option Nat
  | [], acc => some acc
  | c :: rest, acc =>
    match hexVal c with
    | some v => parseHexAux rest (acc * 16 + v)
    | none => none

/-- Python `int(s, 16)` restricted to the unsigned digit strings this
protocol exchanges: `none` models the `ValueError` on an empty or
non-hexadecimal string. -/
def parseHex (cs : List Char) : Option Nat :=
  if cs = [] then none else parseHexAux cs 0

/-- Uppercase hexadecimal digit recogniser, used to state the well-formed
shape of encoded coordinate fields. -/
def isHexU (c : Char) : Bool :=
  ['0', '1', '2', '3', '4', '5', '6', '7', '8', '9', 'A', 'B', 'C', 'D', 'E', 'F'].contains c

/-! ## Coordinate codec (`v2s` in `Mount.goto`, `s2v` in `Mount.get_coord`) -/

/-- Python `int(x)` for a real (here: rational) `x`: truncation toward 0. -/
def pytrunc (q : ℚ) : ℤ := if 0 ≤ q then ⌊q⌋ else ⌈q⌉

/-- `v2s = lambda v: '%04X' % int(v * 65536.0)` from `Mount.goto`
(line 92): the cycle fraction `v` scaled by 2^16, truncated, and rendered
by `%04X`. -/
def v2s (v : ℚ) : List Char := format04X (pytrunc (v * 65536))

/-- `s2v = lambda s: int(s, 16) / 65536.0` from `Mount.get_coord`
(line 111). -/
def s2v (s : List Char) : Option ℚ := (parseHex s).map (fun n => (n : ℚ) / 65536)

/-- The spec-level `angle_to_hex16(value_degrees, full_circle_degrees)`:
the source encoder `v2s` applied to the angle as a fraction of the full
circle. -/
def angle_to_hex16 (d F : ℚ) : String := String.mk (v2s (d / F))

/-- The spec-level `hex16_to_angle(hex_string, full_circle_degrees)`: the
source decoder `s2v` scaled back to degrees by the full circle. -/
def hex16_to_angle (s : String) (F : ℚ) : Option ℚ := (s2v s.toList).map (fun v => v * F)

/-! ## The protocol client (`Mount._command` and the operations) -/

/-- Read single bytes until (and including) the terminator `'#'`, as the
`while True` loop of `Mount._command` does; `none` when the stream holds no
terminator, in which case the source loop never returns. -/
def readUntilHash : List Char → Option (List Char × List Char)
  | [] => none
  | c :: rest =>
    if c = '#' then some ([c], rest)
    else (readUntilHash rest).map (fun p => (c :: p.1, p.2))

/-- `Mount._command(command, rsize)`: write the command, then read either
until the terminator (`rsize = none`) or exactly `rsize` bytes. The
returned response is everything read, terminator included. -/
def command {D : Type} (δ : Dev D) (cmd : List Char) (rsize : Option Nat) : M D (List Char) :=
  fun s =>
    match δ s.dev cmd with
    | (d2, .error e) => (.error e, { s with dev := d2 })
    | (d2, .ok resp) =>
      let buf := s.inbuf ++ resp
      let s1 : St D := { s with dev := d2, inbuf := buf, sent := s.sent ++ [cmd] }
      match rsize with
      | none =>
        match readUntilHash buf with
        | none => (.error .hang, s1)
        | some p => (.ok p.1, { s1 with inbuf := p.2 })
      | some k => (.ok (buf.take k), { s1 with inbuf := buf.drop k })

/-- `Mount.echo(c)`: raises `ValueError` unless the argument is a string of
length 1; otherwise sends `K<c>` and returns the first response byte. -/
def echo {D : Type} (δ : Dev D) (v : PyVal) : M D Char :=
  match v with
  | .str [c] =>
    mbind (command δ ('K' :: [c]) none) (fun response =>
      match response with
      | [] => mthrow .indexError
      | r :: _ => mpure r)
  | _ => mthrow (.valueError "Argument must be a string of length 1")

/-- `Mount.set_tracking_mode(mode)`: sends `T` followed by `chr(mode)` and
reads a terminator-delimited response it ignores. -/
def set_tracking_mode {D : Type} (δ : Dev D) (mode : Nat) : M D Unit :=
  mbind (command δ ['T', Char.ofNat mode] none) (fun _ => mpure ())

/-- `Mount.set_tracking_off()`. -/
def set_tracking_off {D : Type} (δ : Dev D) : M D Unit := set_tracking_mode δ 0

/-- `Mount.goto(sky_coord)`: sends `R%s,%s` with the two fields produced by
`v2s` from the shifted cycle fractions `ra.cycle + 0.5` and
`dec.cycle + 0.25`, and reads a 1-byte ack. -/
def goto {D : Type} (δ : Dev D) (sc : SkyCoord) : M D Unit :=
  mbind (command δ ('R' :: (v2s (sc.ra + 1/2) ++ ',' :: v2s (sc.dec + 1/4))) (some 1))
    (fun _ => mpure ())

/-- `Mount.get_coord()`: sends `E`, reads 10 bytes, drops the last byte,
splits on `','`, parses both fields with `s2v` and undoes the goto offsets
(`ra - 0.5`, `dec - 0.25`, in cycles). -/
def get_coord {D : Type} (δ : Dev D) : M D SkyCoord :=
  mbind (command δ ['E'] (some 10)) (fun response =>
    match (response.dropLast).splitOn ',' with
    | [raS, decS] =>
      match s2v raS, s2v decS with
      | some ra, some dec => mpure ⟨ra - 1/2, dec - 1/4⟩
      | _, _ => mthrow (.valueError "invalid literal for int() with base 16")
    | _ => mthrow (.valueError "need more than 1 value to unpack"))

/-- `Mount.is_goto_in_progress()`: sends `L` (terminator-delimited read)
and reports whether the first response byte differs from `'0'`. -/
def is_goto_in_progress {D : Type} (δ : Dev D) : M D Bool :=
  mbind (command δ ['L'] none) (fun response =>
    match response with
    | [] => mthrow .indexError
    | r :: _ => mpure (r != '0'))

/-- One fuelled unfolding of the `while` loop of `Mount._wait_goto`:
query the motion status; while it is active and the spent budget is below
the timeout, sleep one step, add it to the budget, and evaluate the log
line `mount.get_coord().to_string(...)` against the module-global `mount`
(a `NameError` when `gm = false`). -/
def waitGotoLoop {D : Type} (δ : Dev D) (gm : Bool) (timeout step : ℚ) :
    Nat → ℚ → M D ℚ
  | 0, _ => mthrow .hang
  | fuel + 1, spent =>
    mbind (is_goto_in_progress δ) (fun active =>
      if active = true ∧ spent < timeout then
        (if gm = true then
          mbind (get_coord δ) (fun _ => waitGotoLoop δ gm timeout step fuel (spent + step))
        else mthrow (.nameError "mount"))
      else mpure spent)

/-- Fuel that strictly dominates the number of iterations of the source
loop whenever `0 < step`. -/
def fuelFor (timeout step : ℚ) : Nat := (⌈timeout / step⌉).toNat + 2

/-- `Mount._wait_goto(timeout, step)`: returns the spent budget. -/
def wait_goto {D : Type} (δ : Dev D) (gm : Bool) (timeout step : ℚ) : M D ℚ :=
  waitGotoLoop δ gm timeout step (fuelFor timeout step) 0

/-- `Mount.goto_sync(sky_coord, timeout)`: `goto`, then `_wait_goto`
with the default poll step of 0.1 (the wait result is discarded). -/
def goto_sync {D : Type} (δ : Dev D) (gm : Bool) (sc : SkyCoord) (timeout : ℚ) : M D Unit :=
  mbind (goto δ sc) (fun _ => mbind (wait_goto δ gm timeout (1/10)) (fun _ => mpure ()))

/-- `Mount.cancel_goto()`: queries the motion status; when a goto IS in
progress it only logs `GOTO is already canceled`, and only when the mount
is idle does it send the cancel command `M` (reading a 1-byte ack). -/
def cancel_goto {D : Type} (δ : Dev D) : M D Unit :=
  mbind (is_goto_in_progress δ) (fun active =>
    if active = true then mpure ()
    else mbind (command δ ['M'] (some 1)) (fun _ => mpure ()))

/-- `Mount.cancel_goto_sync()`: `cancel_goto` then `_wait_goto` with the
default budget of 30.0 and step of 0.1. -/
def cancel_goto_sync {D : Type} (δ : Dev D) (gm : Bool) : M D Unit :=
  mbind (cancel_goto δ) (fun _ => mbind (wait_goto δ gm 30 (1/10)) (fun _ => mpure ()))

/-- `self._port.close()`. -/
def portClose {D : Type} : M D Unit := fun s => (.ok (), { s with closed := true })

/-- `Mount.__exit__`: `cancel_goto_sync()`, then `set_tracking_off()`,
then `close()` — a plain sequence with no exception guards. -/
def exitMount {D : Type} (δ : Dev D) (gm : Bool) : M D Unit :=
  mbind (cancel_goto_sync δ gm) (fun _ =>
    mbind (set_tracking_off δ) (fun _ => portClose))

/-- The release half of the `with Mount(...)` statement: after the body
returns or raises, `__exit__` runs; an exception raised by `__exit__`
propagates, otherwise the body's outcome does. -/
def withExit {D α : Type} (δ : Dev D) (gm : Bool) (body : M D α) : M D α :=
  fun s =>
    match body s with
    | (r, s1) =>
      match exitMount δ gm s1 with
      | (.ok _, s2) => (r, s2)
      | (.error e2, s2) => (.error e2, s2)

/-! ## Concrete devices used by the scenarios -/

/-- The fresh session state over a stateless device. -/
def st0 : St Unit := ⟨(), [], [], false⟩

/-- A device that answers every command with the same byte sequence. -/
def constDev (resp : List Char) : Dev Unit := fun _ _ => ((), .ok resp)

/-- A healthy, immediately idle device: `L` answers `0#` (idle), `T`
acknowledges with `1#`, `E` reports a fixed position, everything else is
acknowledged with one byte. -/
def goodDev : Dev Unit := fun _ cmd =>
  ((), .ok (match cmd with
    | 'L' :: _ => ['0', '#']
    | 'T' :: _ => ['1', '#']
    | 'E' :: _ => ['8', '0', '0', '0', ',', '4', '0', '0', '0', '#']
    | _ => ['@']))

/-- A device whose goto never finishes: `L` always answers `1#` (active). -/
def busyDev : Dev Unit := fun _ cmd =>
  ((), .ok (match cmd with
    | 'L' :: _ => ['1', '#']
    | 'E' :: _ => ['8', '0', '0', '0', ',', '4', '0', '0', '0', '#']
    | _ => ['@']))

/-- A transport that fails the motion-status exchange. -/
def badDev : Dev Unit := fun _ cmd =>
  ((), match cmd with
       | 'L' :: _ => .error .transportError
       | _ => .ok ['@'])

/-- Fresh state over the storing device. -/
def st0E : St (List Char) := ⟨[], [], [], false⟩

/-- A device that stores the payload of an `R` goto command and echoes the
stored 16-bit fields back on the position query `E`. -/
def deltaEcho : Dev (List Char) := fun st cmd =>
  match cmd with
  | 'R' :: rest => (rest, .ok ['@'])
  | 'E' :: _ => (st, .ok (st ++ ['#']))
  | _ => (st, .ok ['1', '#'])

end Telescope


namespace Telescope

/-! ## Lemmas about the hexadecimal codec -/

theorem hexVal_hexDigitChar : ∀ m, m < 16 → hexVal (hexDigitChar m) = some m := by decide

theorem isHexU_hexDigitChar : ∀ m, m < 16 → isHexU (hexDigitChar m) = true := by decide

theorem parseHexAux_append (xs ys : List Char) (a : Nat) :
    parseHexAux (xs ++ ys) a = (parseHexAux xs a).bind (fun b => parseHexAux ys b) := by
  induction xs generalizing a with
  | nil => rfl
  | cons c rest ih =>
    simp only [List.cons_append, parseHexAux]
    cases h : hexVal c with
    | some v => simp only [h]; exact ih _
    | none => simp only [h, Option.bind]

theorem parseHexAux_natHexAux :
    ∀ fuel n a, n < 16 ^ fuel →
      parseHexAux (natHexAux fuel n) a = some (a * 16 ^ (natHexAux fuel n).length + n) := by
  intro fuel
  induction fuel with
  | zero =>
    intro n a h
    have hn : n = 0 := by simpa using h
    subst hn
    simp [natHexAux, parseHexAux]
  | succ fuel ih =>
    intro n a h
    by_cases hn : n < 16
    · simp only [natHexAux, if_pos hn, parseHexAux, hexVal_hexDigitChar n hn,
        List.length_singleton, pow_one]
    · have h16 : n / 16 < 16 ^ fuel := by
        rw [Nat.div_lt_iff_lt_mul (by norm_num)]
        calc n < 16 ^ (fuel + 1) := h
          _ = 16 ^ fuel * 16 := by rw [pow_succ]
      simp only [natHexAux, if_neg hn]
      rw [parseHexAux_append, ih _ a h16]
      simp only [Option.some_bind, parseHexAux,
        hexVal_hexDigitChar _ (Nat.mod_lt n (by norm_num)),
        List.length_append, List.length_singleton]
      congr 1
      calc (a * 16 ^ (natHexAux fuel (n / 16)).length + n / 16) * 16 + n % 16
          = a * (16 ^ (natHexAux fuel (n / 16)).length * 16) + (n / 16 * 16 + n % 16) := by ring
        _ = a * 16 ^ ((natHexAux fuel (n / 16)).length + 1) + n := by
            rw [pow_succ]
            congr 1
            omega

theorem mem_natHexAux :
    ∀ fuel n c, c ∈ natHexAux fuel n → isHexU c = true := by
  intro fuel
  induction fuel with
  | zero => intro n c h; simp [natHexAux] at h
  | succ fuel ih =>
    intro n c h
    by_cases hn : n < 16
    · simp only [natHexAux, if_pos hn, List.mem_singleton] at h
      subst h
      exact isHexU_hexDigitChar n hn
    · simp only [natHexAux, if_neg hn, List.mem_append, List.mem_singleton] at h
      rcases h with h | h
      · exact ih _ _ h
      · subst h
        exact isHexU_hexDigitChar _ (Nat.mod_lt n (by norm_num))

theorem natHexAux_length_le :
    ∀ fuel n k, n < 16 ^ k → 1 ≤ k → (natHexAux fuel n).length ≤ k := by
  intro fuel
  induction fuel with
  | zero => intro n k _ _; simp [natHexAux]
  | succ fuel ih =>
    intro n k hk h1
    by_cases hn : n < 16
    · simpa [natHexAux, if_pos hn] using h1
    · obtain ⟨k1, rfl⟩ : ∃ k1, k = k1 + 1 := ⟨k - 1, by omega⟩
      have hk1 : 1 ≤ k1 := by
        by_contra hc
        have hz : k1 = 0 := by omega
        subst hz
        rw [pow_one] at hk
        exact hn hk
      have hdiv : n / 16 < 16 ^ k1 := by
        rw [Nat.div_lt_iff_lt_mul (by norm_num)]
        calc n < 16 ^ (k1 + 1) := hk
          _ = 16 ^ k1 * 16 := by rw [pow_succ]
      simp only [natHexAux, if_neg hn, List.length_append, List.length_singleton]
      have := ih (n / 16) k1 hdiv hk1
      omega

theorem natHexList_parse (n a : Nat) :
    parseHexAux (natHexList n) a = some (a * 16 ^ (natHexList n).length + n) :=
  parseHexAux_natHexAux (n + 1) n a
    (lt_of_lt_of_le (Nat.lt_pow_self (by norm_num) n)
      (Nat.pow_le_pow_right (by norm_num) (by omega)))

theorem natHexList_ne_nil (n : Nat) : natHexList n ≠ [] := by
  show natHexAux (n + 1) n ≠ []
  simp only [natHexAux]
  by_cases hn : n < 16 <;> simp [hn]

theorem natHexList_length_le (n k : Nat) (h : n < 16 ^ k) (h1 : 1 ≤ k) :
    (natHexList n).length ≤ k :=
  natHexAux_length_le (n + 1) n k h h1

theorem mem_natHexList (n : Nat) (c : Char) (h : c ∈ natHexList n) : isHexU c = true :=
  mem_natHexAux (n + 1) n c h

theorem parseHexAux_replicate_zero : ∀ z, parseHexAux (List.replicate z '0') 0 = some 0 := by
  intro z
  have h0 : hexVal '0' = some 0 := by decide
  induction z with
  | zero => rfl
  | succ z ih => simpa [List.replicate_succ, parseHexAux, h0] using ih

theorem parseHex_pad4 (n : Nat) : parseHex (pad4 (natHexList n)) = some n := by
  have hne : pad4 (natHexList n) ≠ [] := by
    unfold pad4
    simp [natHexList_ne_nil n]
  unfold parseHex
  rw [if_neg hne]
  unfold pad4
  rw [parseHexAux_append, parseHexAux_replicate_zero, Option.some_bind, natHexList_parse]
  simp

theorem pad4_length {xs : List Char} (h : xs.length ≤ 4) : (pad4 xs).length = 4 := by
  simp only [pad4, List.length_append, List.length_replicate]
  omega

theorem mem_pad4 {xs : List Char} (hx : ∀ c ∈ xs, isHexU c = true) :
    ∀ c ∈ pad4 xs, isHexU c = true := by
  intro c hc
  rcases List.mem_append.mp hc with h | h
  · have hc0 : c = '0' := List.eq_of_mem_replicate h
    subst hc0
    decide
  · exact hx c h

theorem splitOn_comma {as bs : List Char} (ha : ∀ x ∈ as, isHexU x = true)
    (hb : ∀ x ∈ bs, isHexU x = true) :
    (as ++ ',' :: bs).splitOn ',' = [as, bs] := by
  have hcomma : isHexU ',' = false := by decide
  have ha2 : ∀ x ∈ as, ¬((x == ',') = true) := by
    intro x hx h
    rw [beq_iff_eq] at h
    have hmem := ha x hx
    rw [h, hcomma] at hmem
    exact absurd hmem (by decide)
  have hb2 : ∀ x ∈ bs, ¬((x == ',') = true) := by
    intro x hx h
    rw [beq_iff_eq] at h
    have hmem := hb x hx
    rw [h, hcomma] at hmem
    exact absurd hmem (by decide)
  unfold List.splitOn
  rw [List.splitOnP_first _ _ ha2 ',' (by simp), List.splitOnP_eq_single _ _ hb2]

/-! ## Lemmas about the coordinate codec -/

theorem v2s_floor (q : ℚ) (h0 : 0 ≤ q) :
    v2s q = pad4 (natHexList (⌊q * 65536⌋).toNat) := by
  have hq : (0 : ℚ) ≤ q * 65536 := by positivity
  have hfl : (0 : ℤ) ≤ ⌊q * 65536⌋ := Int.floor_nonneg.mpr hq
  unfold v2s pytrunc format04X
  rw [if_pos hq, if_pos hfl]

theorem v2s_eval (q : ℚ) (m : Nat) (h1 : (m : ℚ) ≤ q * 65536) (h2 : q * 65536 < m + 1) :
    v2s q = pad4 (natHexList m) := by
  have hq : (0 : ℚ) ≤ q * 65536 := le_trans (by positivity) h1
  have h0 : (0 : ℚ) ≤ q := by nlinarith
  have hfl : ⌊q * 65536⌋ = (m : ℤ) := by
    rw [Int.floor_eq_iff]
    constructor
    · exact_mod_cast h1
    · push_cast
      exact h2
  rw [v2s_floor q h0, hfl]
  congr 1

theorem floor_frac_bound (q : ℚ) (h0 : 0 ≤ q) (h1 : q < 1) :
    (⌊q * 65536⌋).toNat < 65536 ∧
    |((⌊q * 65536⌋).toNat : ℚ) / 65536 - q| ≤ 1 / 65536 := by
  have hq : (0 : ℚ) ≤ q * 65536 := by positivity
  have hfl0 : (0 : ℤ) ≤ ⌊q * 65536⌋ := Int.floor_nonneg.mpr hq
  have hcast : ((⌊q * 65536⌋).toNat : ℚ) = ((⌊q * 65536⌋ : ℤ) : ℚ) := by
    exact_mod_cast Int.toNat_of_nonneg hfl0
  have hle : ((⌊q * 65536⌋ : ℤ) : ℚ) ≤ q * 65536 := Int.floor_le _
  have hlt : q * 65536 < ((⌊q * 65536⌋ : ℤ) : ℚ) + 1 := Int.lt_floor_add_one _
  constructor
  · have hlt2 : ⌊q * 65536⌋ < (65536 : ℤ) := by
      apply Int.floor_lt.mpr
      push_cast
      nlinarith
    omega
  · rw [hcast, abs_sub_comm, abs_of_nonneg (by linarith)]
    linarith

end Telescope

namespace Telescope

/-! ## Lemmas about the read loop and the polling loop -/

theorem readUntilHash_well_terminated :
    ∀ (bs rest : List Char), '#' ∉ bs →
      readUntilHash (bs ++ '#' :: rest) = some (bs ++ ['#'], rest) := by
  intro bs
  induction bs with
  | nil =>
    intro rest _
    simp [readUntilHash]
  | cons c cs ih =>
    intro rest h
    have hc : ¬(c = '#') := fun hc => h (hc ▸ List.mem_cons_self c cs)
    rw [List.cons_append, readUntilHash, if_neg hc,
      ih rest (fun hm => h (List.mem_cons_of_mem c hm))]
    rfl

theorem busy_poll_nomount {fuel : Nat} {spent timeout step : ℚ} {sent : List (List Char)}
    (hs : spent < timeout) :
    waitGotoLoop busyDev false timeout step (fuel + 1) spent ⟨(), [], sent, false⟩ =
      (.error (.nameError "mount"), ⟨(), [], sent ++ [['L']], false⟩) := by
  have h1 : is_goto_in_progress busyDev ⟨(), [], sent, false⟩ =
      (.ok true, ⟨(), [], sent ++ [['L']], false⟩) := rfl
  simp only [waitGotoLoop, mbind, h1]
  rw [if_pos ⟨trivial, hs⟩]
  rfl

/-! ## Claim theorems -/

/-- C3 (counterexample): in terminator-delimited mode the payload returned
by `Mount._command` is NOT stripped of the trailing `'#'`: a device
answering `12#` yields the payload `12#`, not `12`. -/
theorem c3_counterexample :
    (command (constDev ['1', '2', '#']) ['V'] none st0).1 = .ok ['1', '2', '#'] ∧
      (['1', '2', '#'] : List Char) ≠ ['1', '2'] := by decide

/-- C3 (amended): in terminator-delimited mode the receive operation reads
bytes up to and including the sentinel `'#'` from the transport, and the
payload returned to the caller INCLUDES that trailing terminator (callers
such as `get_coord` strip it themselves), for every well-terminated
stream. -/
theorem c3_receive_includes_terminator (cmd bs rest : List Char) (h : '#' ∉ bs) :
    command (constDev (bs ++ '#' :: rest)) cmd none st0 =
      (.ok (bs ++ ['#']), ⟨(), rest, [cmd], false⟩) := by
  unfold command constDev st0
  simp only [List.nil_append]
  rw [readUntilHash_well_terminated bs rest h]

/-- C3 witness: the amended theorem at the concrete stream `OK#`. -/
theorem c3_receive_includes_terminator_witness :
    ('#' ∉ (['O', 'K'] : List Char)) ∧
      command (constDev (['O', 'K'] ++ '#' :: [])) ['V'] none st0 =
        (.ok (['O', 'K'] ++ ['#']), ⟨(), [], [['V']], false⟩) :=
  ⟨by decide, c3_receive_includes_terminator ['V'] ['O', 'K'] [] (by decide)⟩

/-- C4 (code evaluation at the failing input): against a device whose `L`
query reports an active goto, `cancel_goto` sends only `L` and never the
cancel command `M`; against an idle device it does send `M`. The condition
in the source is inverted relative to its own log messages. -/
theorem c4_cancel_goto_skips_M :
    cancel_goto busyDev st0 = (.ok (), ⟨(), [], [['L']], false⟩) ∧
      ¬(['M'] ∈ (cancel_goto busyDev st0).2.sent) ∧
      cancel_goto goodDev st0 = (.ok (), ⟨(), [], [['L'], ['M']], false⟩) := by decide

/-- C6 (counterexample): when the transport fails the motion-status
exchange during `__exit__`, the failure propagates and neither the
tracking-off command nor the port close is performed: the claim that a
failing cleanup step does not prevent the subsequent steps is false. -/
theorem c6_counterexample :
    exitMount badDev true st0 = (.error .transportError, ⟨(), [], [], false⟩) ∧
      (exitMount badDev true st0).2.closed = false := by decide

/-- C6 (amended): `__exit__` is invoked on every exit path of the `with`
block — body success and body exception alike — and when every cleanup
step succeeds it cancels, disables tracking and closes the port (and does
not mask the body's exception); but a failure in an earlier cleanup step
aborts the remaining steps: with a transport failing the cancel query,
tracking-off and close never run. -/
theorem c6_exit_runs_on_every_path :
    (∀ a : Nat, withExit goodDev true (mpure a) st0 =
        (.ok a, ⟨(), [], [['L'], ['M'], ['L'], ['T', Char.ofNat 0]], true⟩)) ∧
    (∀ e : PyErr, withExit goodDev true (mthrow e : M Unit Nat) st0 =
        (.error e, ⟨(), [], [['L'], ['M'], ['L'], ['T', Char.ofNat 0]], true⟩)) ∧
    (withExit badDev true (mpure (0 : Nat)) st0 =
        (.error .transportError, ⟨(), [], [], false⟩)) := by
  have hexit : exitMount goodDev true st0 =
      (.ok (), ⟨(), [], [['L'], ['M'], ['L'], ['T', Char.ofNat 0]], true⟩) := by decide
  refine ⟨fun a => ?_, fun e => ?_, by decide⟩
  · simp only [withExit, mpure, hexit]
  · simp only [withExit, mthrow, hexit]

/-- C7: each loop iteration of `_wait_goto` evaluates `mount.get_coord()`
against the module-global name `mount`; when no such global is bound and
the device keeps the goto active, the very first iteration of the wait
fails with a `NameError` for any positive timeout, after the single `L`
status poll. -/
theorem c7_wait_needs_global_mount (timeout step : ℚ) (h : 0 < timeout) :
    wait_goto busyDev false timeout step st0 =
      (.error (.nameError "mount"), ⟨(), [], [['L']], false⟩) := by
  show waitGotoLoop busyDev false timeout step (fuelFor timeout step) 0 st0 = _
  have hf : fuelFor timeout step = ((⌈timeout / step⌉).toNat + 1) + 1 := rfl
  rw [hf]
  exact busy_poll_nomount h

/-- C7 witness: the source's default timeout of 30.0 and step of 0.1. -/
theorem c7_wait_needs_global_mount_witness :
    (0 : ℚ) < 30 ∧
      wait_goto busyDev false 30 (1/10) st0 =
        (.error (.nameError "mount"), ⟨(), [], [['L']], false⟩) :=
  ⟨by norm_num, c7_wait_needs_global_mount 30 (1/10) (by norm_num)⟩

/-- C10: `echo` raises `ValueError` exactly when its argument is not a
one-character string; on a one-character string it writes the `K` command
and returns the first byte of the response. -/
theorem c10_echo_one_char (v : PyVal) :
    ((∀ ch : Char, v ≠ PyVal.str [ch]) →
      echo (constDev ['E', '#']) v st0 =
        (.error (.valueError "Argument must be a string of length 1"), st0)) ∧
    (∀ ch : Char, v = PyVal.str [ch] →
      echo (constDev ['E', '#']) v st0 = (.ok 'E', ⟨(), [], [['K', ch]], false⟩)) := by
  cases v with
  | nonStr => exact ⟨fun _ => rfl, fun ch h => by cases h⟩
  | str s =>
    match s with
    | [] => exact ⟨fun _ => rfl, fun ch h => by cases h⟩
    | [c] =>
      refine ⟨fun hv => absurd rfl (hv c), fun ch h => ?_⟩
      cases h
      rfl
    | c1 :: c2 :: cs => exact ⟨fun _ => rfl, fun ch h => by cases h⟩

/-- C10 witness: `echo('Q')` sends `KQ` and returns the first response
byte. -/
theorem c10_echo_one_char_witness :
    PyVal.str ['Q'] = PyVal.str ['Q'] ∧
      echo (constDev ['E', '#']) (PyVal.str ['Q']) st0 =
        (.ok 'E', ⟨(), [], [['K', 'Q']], false⟩) :=
  ⟨rfl, (c10_echo_one_char (PyVal.str ['Q'])).2 'Q' rfl⟩

end Telescope

namespace Telescope

theorem busy_step {fuel : Nat} {spent timeout step : ℚ} {sent : List (List Char)}
    (hs : spent < timeout) :
    waitGotoLoop busyDev true timeout step (fuel + 1) spent ⟨(), [], sent, false⟩ =
      waitGotoLoop busyDev true timeout step fuel (spent + step)
        ⟨(), [], sent ++ [['L'], ['E']], false⟩ := by
  have key : waitGotoLoop busyDev true timeout step (fuel + 1) spent ⟨(), [], sent, false⟩ =
      (if (true : Bool) = true ∧ spent < timeout then
        (if (true : Bool) = true then
          mbind (get_coord busyDev)
            (fun _ => waitGotoLoop busyDev true timeout step fuel (spent + step))
        else mthrow (.nameError "mount"))
      else mpure spent) ⟨(), [], sent ++ [['L']], false⟩ := rfl
  have h2 : mbind (get_coord busyDev)
      (fun _ => waitGotoLoop busyDev true timeout step fuel (spent + step))
      ⟨(), [], sent ++ [['L']], false⟩ =
        waitGotoLoop busyDev true timeout step fuel (spent + step)
          ⟨(), [], (sent ++ [['L']]) ++ [['E']], false⟩ := rfl
  rw [key, if_pos ⟨rfl, hs⟩, if_pos rfl, h2, List.append_assoc]
  rfl

theorem busy_stop {fuel : Nat} {spent timeout step : ℚ} {sent : List (List Char)}
    (hs : ¬spent < timeout) :
    waitGotoLoop busyDev true timeout step (fuel + 1) spent ⟨(), [], sent, false⟩ =
      (.ok spent, ⟨(), [], sent ++ [['L']], false⟩) := by
  have key : waitGotoLoop busyDev true timeout step (fuel + 1) spent ⟨(), [], sent, false⟩ =
      (if (true : Bool) = true ∧ spent < timeout then
        (if (true : Bool) = true then
          mbind (get_coord busyDev)
            (fun _ => waitGotoLoop busyDev true timeout step fuel (spent + step))
        else mthrow (.nameError "mount"))
      else mpure spent) ⟨(), [], sent ++ [['L']], false⟩ := rfl
  rw [key, if_neg (fun hc => hs hc.2)]
  rfl

/-- C5: against a device whose goto never finishes (and with the module
global `mount` bound, as in the source's main block), the slew-wait loop
with timeout 1.0 and poll interval 0.1 terminates and returns normally,
with an elapsed value in the interval `[1.0, 1.0 + 0.1)`. Times are exact
rationals here; the binary-float run of the source stays inside the same
interval. -/
theorem c5_wait_timeout_returns :
    ∃ q : ℚ, (wait_goto busyDev true 1 (1/10) st0).1 = .ok q ∧ 1 ≤ q ∧ q < 1 + 1/10 := by
  refine ⟨1, ?_, by norm_num, by norm_num⟩
  have hf : fuelFor 1 (1/10) = 12 := by
    norm_num [fuelFor]
    decide
  show (waitGotoLoop busyDev true 1 (1/10) (fuelFor 1 (1/10)) 0 st0).1 = .ok 1
  rw [hf, show st0 = ⟨(), [], [], false⟩ from rfl]
  rw [busy_step (by norm_num)]
  norm_num
  rw [busy_step (by norm_num)]
  norm_num
  rw [busy_step (by norm_num)]
  norm_num
  rw [busy_step (by norm_num)]
  norm_num
  rw [busy_step (by norm_num)]
  norm_num
  rw [busy_step (by norm_num)]
  norm_num
  rw [busy_step (by norm_num)]
  norm_num
  rw [busy_step (by norm_num)]
  norm_num
  rw [busy_step (by norm_num)]
  norm_num
  rw [busy_step (by norm_num)]
  norm_num
  rw [busy_stop (by norm_num)]

end Telescope

namespace Telescope

/-- C1 (counterexample): with target RA 270 degrees and Dec 35 degrees the
single `R` command actually sent is `R14000,58E3` — the fields encode the
OFFSET fractions `ra.cycle + 0.5` and `dec.cycle + 0.25`, not the plain
angles, so the RA field is not `C000` and the Dec field is not `18E3`
(the RA field is not even 4 digits wide). -/
theorem c1_counterexample :
    (goto_sync goodDev true (skycoordOfDeg 270 35) 30 st0).2.sent =
      [String.toList "R14000,58E3", ['L']] ∧
      String.toList "R14000,58E3" ≠ String.toList "RC000,18E3" := by
  have hra : v2s ((skycoordOfDeg 270 35).ra + 1/2) = ['1', '4', '0', '0', '0'] := by
    rw [v2s_eval _ 81920 (by norm_num [skycoordOfDeg]) (by norm_num [skycoordOfDeg])]
    decide
  have hdec : v2s ((skycoordOfDeg 270 35).dec + 1/4) = ['5', '8', 'E', '3'] := by
    rw [v2s_eval _ 22755 (by norm_num [skycoordOfDeg]) (by norm_num [skycoordOfDeg])]
    decide
  constructor
  · simp only [goto_sync, goto, hra, hdec]
    decide
  · decide

/-- C1 (amended): for a device that reports idle immediately,
`goto_sync(RA=270°, Dec=35°)` sends exactly one `R` command, whose fields
are the `v2s` encodings of the offset fractions: `14000` (five digits,
since the shifted RA fraction 1.25 exceeds a full turn and no modular
reduction occurs) and `58E3`; it then polls the status exactly once and
the wait returns with elapsed time exactly 0. -/
theorem c1_goto_sync_offset_encoding :
    goto_sync goodDev true (skycoordOfDeg 270 35) 30 st0 =
      (.ok (), ⟨(), [], [String.toList "R14000,58E3", ['L']], false⟩) ∧
    (mbind (goto goodDev (skycoordOfDeg 270 35))
        (fun _ => wait_goto goodDev true 30 (1/10)) st0).1 = .ok 0 := by
  have hra : v2s ((skycoordOfDeg 270 35).ra + 1/2) = ['1', '4', '0', '0', '0'] := by
    rw [v2s_eval _ 81920 (by norm_num [skycoordOfDeg]) (by norm_num [skycoordOfDeg])]
    decide
  have hdec : v2s ((skycoordOfDeg 270 35).dec + 1/4) = ['5', '8', 'E', '3'] := by
    rw [v2s_eval _ 22755 (by norm_num [skycoordOfDeg]) (by norm_num [skycoordOfDeg])]
    decide
  constructor
  · simp only [goto_sync, goto, hra, hdec]
    decide
  · simp only [goto, hra, hdec]
    decide

end Telescope

namespace Telescope

/-- C2 (counterexample): the encoder performs no reduction modulo 65536:
`angle_to_hex16(360, 360)` renders the scaled value 65536 as the
five-digit string `10000`, not as `0000`. -/
theorem c2_counterexample :
    angle_to_hex16 360 360 = "10000" ∧ angle_to_hex16 360 360 ≠ "0000" := by
  have h : v2s ((360 : ℚ) / 360) = ['1', '0', '0', '0', '0'] := by
    rw [v2s_eval _ 65536 (by norm_num) (by norm_num)]
    decide
  constructor
  · show String.mk (v2s ((360 : ℚ) / 360)) = "10000"
    rw [h]
  · show String.mk (v2s ((360 : ℚ) / 360)) ≠ "0000"
    rw [h]
    decide

/-- C2 (amended): the encoder truncates the scaled value and formats it
with `%04X` WITHOUT modular reduction: the output is 4 zero-padded
uppercase hex digits whenever `0 ≤ d < F` (so the scaled value lies in
`[0, 65536)`); `angle_to_hex16(0,360) = "0000"` and
`angle_to_hex16(180,360) = "8000"` hold, but `angle_to_hex16(360,360)`
is the five-digit `"10000"`, not `"0000"`. -/
theorem c2_hex16_no_modular_reduction (d F : ℚ) (h0 : 0 ≤ d) (h1 : d < F) :
    (angle_to_hex16 d F).length = 4 ∧
    (∀ c ∈ (angle_to_hex16 d F).toList, isHexU c = true) ∧
    angle_to_hex16 0 360 = "0000" ∧
    angle_to_hex16 180 360 = "8000" ∧
    angle_to_hex16 360 360 = "10000" := by
  have hF : 0 < F := lt_of_le_of_lt h0 h1
  have hq0 : 0 ≤ d / F := div_nonneg h0 (le_of_lt hF)
  have hq1 : d / F < 1 := (div_lt_one hF).mpr h1
  have hm := (floor_frac_bound (d / F) hq0 hq1).1
  have hv : v2s (d / F) = pad4 (natHexList (⌊d / F * 65536⌋).toNat) := v2s_floor _ hq0
  refine ⟨?_, ?_, ?_, ?_, ?_⟩
  · show (v2s (d / F)).length = 4
    rw [hv]
    exact pad4_length (natHexList_length_le _ 4 (lt_of_lt_of_le hm (by norm_num)) (by norm_num))
  · show ∀ c ∈ v2s (d / F), isHexU c = true
    rw [hv]
    exact mem_pad4 (fun c hc => mem_natHexList _ c hc)
  · have h00 : v2s ((0 : ℚ) / 360) = ['0', '0', '0', '0'] := by
      rw [v2s_eval _ 0 (by norm_num) (by norm_num)]
      decide
    show String.mk (v2s ((0 : ℚ) / 360)) = "0000"
    rw [h00]
  · have h180 : v2s ((180 : ℚ) / 360) = ['8', '0', '0', '0'] := by
      rw [v2s_eval _ 32768 (by norm_num) (by norm_num)]
      decide
    show String.mk (v2s ((180 : ℚ) / 360)) = "8000"
    rw [h180]
  · have h360 : v2s ((360 : ℚ) / 360) = ['1', '0', '0', '0', '0'] := by
      rw [v2s_eval _ 65536 (by norm_num) (by norm_num)]
      decide
    show String.mk (v2s ((360 : ℚ) / 360)) = "10000"
    rw [h360]

/-- C2 witness: the amended theorem at `d = 90`, `F = 360`. -/
theorem c2_hex16_no_modular_reduction_witness :
    ((0 : ℚ) ≤ 90 ∧ (90 : ℚ) < 360) ∧
    ((angle_to_hex16 90 360).length = 4 ∧
      (∀ c ∈ (angle_to_hex16 90 360).toList, isHexU c = true) ∧
      angle_to_hex16 0 360 = "0000" ∧
      angle_to_hex16 180 360 = "8000" ∧
      angle_to_hex16 360 360 = "10000") :=
  ⟨⟨by norm_num, by norm_num⟩,
    c2_hex16_no_modular_reduction 90 360 (by norm_num) (by norm_num)⟩

/-- C8: for every degree value `d` in `[0, 360)` with full circle 360,
decoding the encoding of `d` returns a value within `360/65536` degrees
of `d`. -/
theorem c8_roundtrip_within_resolution (d : ℚ) (h0 : 0 ≤ d) (h1 : d < 360) :
    ∃ v, hex16_to_angle (angle_to_hex16 d 360) 360 = some v ∧ |v - d| ≤ 360 / 65536 := by
  have hq0 : 0 ≤ d / 360 := by positivity
  have hq1 : d / 360 < 1 := (div_lt_one (by norm_num)).mpr h1
  obtain ⟨hm, habs⟩ := floor_frac_bound (d / 360) hq0 hq1
  refine ⟨((⌊d / 360 * 65536⌋).toNat : ℚ) / 65536 * 360, ?_, ?_⟩
  · show (s2v (String.mk (v2s (d / 360))).toList).map (fun v => v * 360) = _
    rw [show (String.mk (v2s (d / 360))).toList = v2s (d / 360) from rfl]
    rw [v2s_floor _ hq0]
    unfold s2v
    rw [parseHex_pad4]
    rfl
  · calc |((⌊d / 360 * 65536⌋).toNat : ℚ) / 65536 * 360 - d|
        = |(((⌊d / 360 * 65536⌋).toNat : ℚ) / 65536 - d / 360) * 360| := by
          rw [show ((⌊d / 360 * 65536⌋).toNat : ℚ) / 65536 * 360 - d =
            (((⌊d / 360 * 65536⌋).toNat : ℚ) / 65536 - d / 360) * 360 from by ring]
      _ = |((⌊d / 360 * 65536⌋).toNat : ℚ) / 65536 - d / 360| * |(360 : ℚ)| := abs_mul _ _
      _ ≤ 1 / 65536 * 360 := by
          rw [show |(360 : ℚ)| = 360 from by norm_num]
          exact mul_le_mul_of_nonneg_right habs (by norm_num)
      _ ≤ 360 / 65536 := by norm_num

/-- C8 witness: the round trip at `d = 90`. -/
theorem c8_roundtrip_within_resolution_witness :
    ((0 : ℚ) ≤ 90 ∧ (90 : ℚ) < 360) ∧
    (∃ v, hex16_to_angle (angle_to_hex16 90 360) 360 = some v ∧
      |v - (90 : ℚ)| ≤ 360 / 65536) :=
  ⟨⟨by norm_num, by norm_num⟩,
    c8_roundtrip_within_resolution 90 (by norm_num) (by norm_num)⟩

end Telescope

namespace Telescope

/-- C9: the constant offsets `goto` adds before encoding (+0.5 cycle to
RA, +0.25 cycle to Dec) are exactly the offsets `get_coord` subtracts
after decoding: for every target whose shifted fractions lie in `[0, 1)`,
against a device that stores and echoes back the transmitted 16-bit
fields, `get_coord` after `goto` returns the commanded coordinate to
within 1/65536 of a full turn per axis. -/
theorem c9_goto_get_coord_roundtrip (sc : SkyCoord)
    (h1 : 0 ≤ sc.ra + 1/2) (h2 : sc.ra + 1/2 < 1)
    (h3 : 0 ≤ sc.dec + 1/4) (h4 : sc.dec + 1/4 < 1) :
    ∃ (sc2 : SkyCoord) (s2 : St (List Char)),
      mbind (goto deltaEcho sc) (fun _ => get_coord deltaEcho) st0E = (.ok sc2, s2) ∧
      |sc2.ra - sc.ra| ≤ 1 / 65536 ∧ |sc2.dec - sc.dec| ≤ 1 / 65536 := by
  obtain ⟨hma, habsa⟩ := floor_frac_bound (sc.ra + 1/2) h1 h2
  obtain ⟨hmb, habsb⟩ := floor_frac_bound (sc.dec + 1/4) h3 h4
  have hva : v2s (sc.ra + 1/2) = pad4 (natHexList (⌊(sc.ra + 1/2) * 65536⌋).toNat) :=
    v2s_floor _ h1
  have hvb : v2s (sc.dec + 1/4) = pad4 (natHexList (⌊(sc.dec + 1/4) * 65536⌋).toNat) :=
    v2s_floor _ h3
  have hlena : (v2s (sc.ra + 1/2)).length = 4 := by
    rw [hva]
    exact pad4_length (natHexList_length_le _ 4 (lt_of_lt_of_le hma (by norm_num)) (by norm_num))
  have hlenb : (v2s (sc.dec + 1/4)).length = 4 := by
    rw [hvb]
    exact pad4_length (natHexList_length_le _ 4 (lt_of_lt_of_le hmb (by norm_num)) (by norm_num))
  have hmema : ∀ x ∈ v2s (sc.ra + 1/2), isHexU x = true := by
    rw [hva]
    exact mem_pad4 (fun c hc => mem_natHexList _ c hc)
  have hmemb : ∀ x ∈ v2s (sc.dec + 1/4), isHexU x = true := by
    rw [hvb]
    exact mem_pad4 (fun c hc => mem_natHexList _ c hc)
  have hs2va : s2v (v2s (sc.ra + 1/2)) = some (((⌊(sc.ra + 1/2) * 65536⌋).toNat : ℚ) / 65536) := by
    rw [hva]
    unfold s2v
    rw [parseHex_pad4]
    rfl
  have hs2vb : s2v (v2s (sc.dec + 1/4)) = some (((⌊(sc.dec + 1/4) * 65536⌋).toNat : ℚ) / 65536) := by
    rw [hvb]
    unfold s2v
    rw [parseHex_pad4]
    rfl
  set m1 := (⌊(sc.ra + 1/2) * 65536⌋).toNat with hm1
  set m2 := (⌊(sc.dec + 1/4) * 65536⌋).toNat with hm2
  set a := v2s (sc.ra + 1/2) with hadef
  set b := v2s (sc.dec + 1/4) with hbdef
  have hgoto : goto deltaEcho sc st0E =
      (.ok (), ⟨a ++ ',' :: b, [], [('R' :: (a ++ ',' :: b))], false⟩) := rfl
  have hcmdE : command deltaEcho ['E'] (some 10)
      ⟨a ++ ',' :: b, [], [('R' :: (a ++ ',' :: b))], false⟩ =
      (.ok (([] ++ ((a ++ ',' :: b) ++ ['#'])).take 10),
        ⟨a ++ ',' :: b, ([] ++ ((a ++ ',' :: b) ++ ['#'])).drop 10,
          [('R' :: (a ++ ',' :: b)), ['E']], false⟩) := rfl
  have hlen9 : ((a ++ ',' :: b) ++ ['#']).length ≤ 10 := by
    simp [List.length_append, hlena, hlenb]
  have htake : ([] ++ ((a ++ ',' :: b) ++ ['#'])).take 10 = (a ++ ',' :: b) ++ ['#'] := by
    rw [List.nil_append]
    exact List.take_of_length_le hlen9
  have hdrop : ([] ++ ((a ++ ',' :: b) ++ ['#'])).drop 10 = [] := by
    rw [List.nil_append]
    exact List.drop_eq_nil_of_le hlen9
  rw [htake, hdrop] at hcmdE
  have hsplit : (a ++ ',' :: b).splitOn ',' = [a, b] := splitOn_comma hmema hmemb
  have hget : get_coord deltaEcho ⟨a ++ ',' :: b, [], [('R' :: (a ++ ',' :: b))], false⟩ =
      (.ok ⟨(m1 : ℚ) / 65536 - 1/2, (m2 : ℚ) / 65536 - 1/4⟩,
        ⟨a ++ ',' :: b, [], [('R' :: (a ++ ',' :: b)), ['E']], false⟩) := by
    simp only [get_coord, mbind, hcmdE, List.dropLast_concat, hsplit, hs2va, hs2vb, mpure]
  refine ⟨⟨(m1 : ℚ) / 65536 - 1/2, (m2 : ℚ) / 65536 - 1/4⟩,
    ⟨a ++ ',' :: b, [], [('R' :: (a ++ ',' :: b)), ['E']], false⟩, ?_, ?_, ?_⟩
  · simp only [mbind, hgoto, hget]
  · show |(m1 : ℚ) / 65536 - 1/2 - sc.ra| ≤ 1 / 65536
    rw [show (m1 : ℚ) / 65536 - 1/2 - sc.ra = (m1 : ℚ) / 65536 - (sc.ra + 1/2) from by ring]
    exact habsa
  · show |(m2 : ℚ) / 65536 - 1/4 - sc.dec| ≤ 1 / 65536
    rw [show (m2 : ℚ) / 65536 - 1/4 - sc.dec = (m2 : ℚ) / 65536 - (sc.dec + 1/4) from by ring]
    exact habsb

/-- C9 witness: the round trip at the target with both cycle fractions 0
(shifted fractions 0.5 and 0.25). -/
theorem c9_goto_get_coord_roundtrip_witness :
    (0 ≤ (SkyCoord.mk 0 0).ra + 1/2 ∧ (SkyCoord.mk 0 0).ra + 1/2 < 1 ∧
      0 ≤ (SkyCoord.mk 0 0).dec + 1/4 ∧ (SkyCoord.mk 0 0).dec + 1/4 < 1) ∧
    (∃ (sc2 : SkyCoord) (s2 : St (List Char)),
      mbind (goto deltaEcho (SkyCoord.mk 0 0)) (fun _ => get_coord deltaEcho) st0E =
        (.ok sc2, s2) ∧
      |sc2.ra - (SkyCoord.mk 0 0).ra| ≤ 1 / 65536 ∧
      |sc2.dec - (SkyCoord.mk 0 0).dec| ≤ 1 / 65536) :=
  ⟨⟨by norm_num, by norm_num, by norm_num, by norm_num⟩,
    c9_goto_get_coord_roundtrip (SkyCoord.mk 0 0)
      (by norm_num) (by norm_num) (by norm_num) (by norm_num)⟩

end Telescope

namespace Telescope

/-- C6 witness: the exit sequence after a successful body. -/
theorem c6_exit_runs_on_every_path_witness :
    withExit goodDev true (mpure (7 : Nat)) st0 =
      (.ok 7, ⟨(), [], [['L'], ['M'], ['L'], ['T', Char.ofNat 0]], true⟩) :=
  c6_exit_runs_on_every_path.1 7

end Telescope
